import Mathlib

/-!
A shallow embedding of the `only-config` runtime configuration store
(`src/Config.js`: the `Config` manager and the `Observable` primitive),
together with proofs about its behaviour.

Modelling conventions:
* JavaScript values are modelled by `JSVal`.  Every object carries an
  allocation identifier, so `===` on objects (reference identity) is plain
  equality of `JSVal`: along any execution each allocation receives a fresh
  identifier, hence two structurally equal objects born from different
  allocations compare unequal, exactly as JS references do.  An allocation
  counter is threaded through every operation that creates objects.
* Arrays are not modelled; no property below involves arrays.
* The Joi schema collaborator is modelled abstractly as a `Schema`: a
  function from a candidate value and validation options to an
  error-list/value pair, threading the allocation counter (Joi returns a
  freshly built normalized value).  A concrete executable instance
  (`flatSchema`) is provided for witnesses and counterexamples.
* The `deepmerge` collaborator is modelled faithfully after `deepmerge`
  v4's default behaviour on plain objects (`mergeObject` with
  clone-by-default), minus arrays.
* Listener callbacks are modelled by identifiers (`Nat`): two listeners are
  the same function reference exactly when their identifiers are equal.
  Mutating operations return the list of notifications they fire, in order,
  as `(listener, value)` pairs.
* Exceptions are modelled by returning the post-mutation state together
  with an `Option ConfigError`: JS exceptions leave already-performed field
  mutations in place, and so does the model.
-/

mutual
/-- JavaScript values (arrays omitted).  `vObj id fields` carries the
allocation identifier `id`; equality of `JSVal` coincides with JS `===`. -/
inductive JSVal : Type where
  | vNull : JSVal
  | vUndefined : JSVal
  | vBool : Bool → JSVal
  | vNum : Int → JSVal
  | vStr : String → JSVal
  | vObj : Nat → JSFields → JSVal
deriving DecidableEq, Repr

/-- Ordered own enumerable fields of a JS object. -/
inductive JSFields : Type where
  | fnil : JSFields
  | fcons : String → JSVal → JSFields → JSFields
deriving DecidableEq, Repr
end

/-- Field lookup, first occurrence (JS objects have unique keys). -/
def JSFields.getF : JSFields → String → Option JSVal
  | .fnil, _ => none
  | .fcons k v rest, key => if k = key then some v else rest.getF key

/-- `destination[key] = v`: updates an existing key in place, else appends
(matching JS property-assignment order semantics). -/
def JSFields.setF : JSFields → String → JSVal → JSFields
  | .fnil, key, v => .fcons key v .fnil
  | .fcons k w rest, key, v =>
      if k = key then .fcons k v rest else .fcons k w (rest.setF key v)

/-- Keys of an object's fields, in order. -/
def JSFields.keysF : JSFields → List String
  | .fnil => []
  | .fcons k _ rest => k :: rest.keysF

/-- `isMergeableObject` for our value universe: plain objects only. -/
def isMergeable : JSVal → Bool
  | .vObj _ _ => true
  | _ => false

/-- The fields of a value (empty for non-objects, like `Object.keys`). -/
def fieldsOf : JSVal → JSFields
  | .vObj _ fs => fs
  | _ => .fnil

mutual
/-- `cloneUnlessOtherwiseSpecified`: deep copy with fresh allocation
identifiers for objects, identity for primitives. -/
def cloneVal : JSVal → Nat → JSVal × Nat
  | .vObj _ fs, n =>
      let (fs1, n1) := cloneFields fs n
      (.vObj n1 fs1, n1 + 1)
  | v, n => (v, n)

def cloneFields : JSFields → Nat → JSFields × Nat
  | .fnil, n => (.fnil, n)
  | .fcons k v rest, n =>
      let (v1, n1) := cloneVal v n
      let (rest1, n2) := cloneFields rest n1
      (.fcons k v1 rest1, n2)
end

mutual
/-- `deepmerge(target, source)` (v4 default options, no arrays): build a
destination from a clone of the target's fields, then fold the source's
fields in (a no-op when the source has no own keys), recursively merging
where the key exists on the target and the source value is mergeable,
cloning otherwise.  `mergeSrc` is the loop over the source's fields. -/
def deepMergeV (t s : JSVal) (n : Nat) : JSVal × Nat :=
  match s with
  | .vObj _ sfs =>
      let (dest0, n1) := if isMergeable t then cloneFields (fieldsOf t) n else (.fnil, n)
      let (dest1, n2) := mergeSrc t sfs dest0 n1
      (.vObj n2 dest1, n2 + 1)
  | _ =>
      let (dest0, n1) := if isMergeable t then cloneFields (fieldsOf t) n else (.fnil, n)
      (.vObj n1 dest0, n1 + 1)

def mergeSrc (t : JSVal) (src : JSFields) (dest : JSFields) (n : Nat) :
    JSFields × Nat :=
  match src with
  | .fnil => (dest, n)
  | .fcons k v rest =>
      match (fieldsOf t).getF k, isMergeable v with
      | some tv, true =>
          let (mv, n1) := deepMergeV tv v n
          mergeSrc t rest (dest.setF k mv) n1
      | _, _ =>
          let (cv, n1) := cloneVal v n
          mergeSrc t rest (dest.setF k cv) n1
end

/-- `deepMerge.all([a, b])`: reduce from a fresh empty object. -/
def deepMergeAll (a b : JSVal) (n : Nat) : JSVal × Nat :=
  let (m1, n1) := deepMergeV (.vObj n .fnil) a (n + 1)
  deepMergeV m1 b n1

/-- Validation options passed to the schema collaborator. -/
structure VOpts where
  abortEarly : Bool
  allowUnknown : Bool
deriving DecidableEq, Repr

/-- Result of a validation call: optional error list and normalized value. -/
structure VResult where
  error : Option (List String)
  value : JSVal
deriving DecidableEq, Repr

/-- The Joi schema collaborator, abstract: `validate(candidate, options)`
returning `{ error, value }`, threading the allocation counter. -/
structure Schema where
  validate : JSVal → VOpts → Nat → VResult × Nat

/-- Errors surfaced by `Config` operations. -/
inductive ConfigError : Type where
  | typeError : ConfigError
  | validationError : List String → ConfigError
deriving DecidableEq, Repr

/-- The `Observable` primitive: one value plus an ordered listener list. -/
structure Observable (α : Type) where
  val : α
  listeners : List Nat
deriving DecidableEq, Repr

/-- `Observable.get`. -/
def Observable.get (o : Observable α) : α := o.val

/-- `Observable.set`: store and notify every listener in subscription order
only when the new value is not identical to the stored one.  Returns the
notifications fired. -/
def Observable.set [DecidableEq α] (o : Observable α) (v : α) :
    Observable α × List (Nat × α) :=
  if o.val = v then (o, [])
  else ({ val := v, listeners := o.listeners }, o.listeners.map (fun l => (l, v)))

/-- `Observable.subscribe`: append the listener. -/
def Observable.subscribe (o : Observable α) (l : Nat) : Observable α :=
  { o with listeners := o.listeners ++ [l] }

/-- The closure returned by `Observable.subscribe`: filter out everything
identical to the captured listener reference. -/
def Observable.unsubscribe (o : Observable α) (l : Nat) : Observable α :=
  { o with listeners := o.listeners.filter (fun x => x != l) }

/-- The `Config` manager's private fields, plus the allocation counter. -/
structure Config where
  config : JSVal
  schema : Option Schema
  observable : Observable JSVal
  observables : List (String × Observable JSVal)
  fresh : Nat

/-- Truthiness of an optional string key (`if (key)`): absent and empty
string are falsy. -/
def strTruthy : Option String → Option String
  | none => none
  | some s => if s.isEmpty then none else some s

/-- Splitting a character list at the dots, accumulating the current
segment in reverse. -/
def splitPathAux : List Char → List Char → List String
  | [], acc => [String.mk acc.reverse]
  | c :: rest, acc =>
      if c = ('.') then String.mk acc.reverse :: splitPathAux rest []
      else splitPathAux rest (c :: acc)

/-- Dotted path split, as lodash does for plain dotted keys. -/
def splitPath (k : String) : List String := splitPathAux k.data []

/-- `_.get(obj, path)`: walk the path, `undefined` when any hop fails. -/
def getPath : JSVal → List String → JSVal
  | v, [] => v
  | .vObj _ fs, p :: rest =>
      match fs.getF p with
      | some v => getPath v rest
      | none => .vUndefined
  | _, _ :: _ => .vUndefined

/-- `_.set(\x7b\x7d, path, v)`: fresh nested objects along the path. -/
def buildPath (path : List String) (v : JSVal) (n : Nat) : JSVal × Nat :=
  match path with
  | [] => (v, n)
  | p :: rest =>
      let (inner, n1) := buildPath rest v n
      (.vObj n1 (.fcons p inner .fnil), n1 + 1)

/-- `Config.get`: whole state for a falsy key, dotted-path lookup else. -/
def Config.get (c : Config) (key : Option String) : JSVal :=
  match strTruthy key with
  | none => c.config
  | some k => getPath c.config (splitPath k)

/-- Lookup in the per-key observable map. -/
def lookupObs : List (String × Observable JSVal) → String → Option (Observable JSVal)
  | [], _ => none
  | (k, o) :: rest, key => if k = key then some o else lookupObs rest key

/-- Write into the per-key observable map. -/
def updateObs : List (String × Observable JSVal) → String → Observable JSVal →
    List (String × Observable JSVal)
  | [], key, o => [(key, o)]
  | (k, w) :: rest, key, o =>
      if k = key then (k, o) :: rest else (k, w) :: updateObs rest key o

/-- `Config._merge(newValue, onError)`: deep-merge the patch into the state,
validate with `abortEarly: false`; commit the validator's value on success;
on failure either throw, or consult the handler, a truthy handler committing
the `allowUnknown` revalidation's value and a falsy one doing nothing.
Dereferencing a `null` schema is the TypeError the source would raise. -/
def Config._merge (c : Config) (newValue : JSVal)
    (onError : Option (List String → Bool)) : Config × Option ConfigError :=
  let (merged, n1) := deepMergeAll c.config newValue c.fresh
  match c.schema with
  | none => ({ c with fresh := n1 }, some .typeError)
  | some s =>
      let (r, n2) := s.validate merged ⟨false, false⟩ n1
      match r.error with
      | none => ({ c with config := r.value, fresh := n2 }, none)
      | some errs =>
          match onError with
          | none => ({ c with fresh := n2 }, some (.validationError errs))
          | some h =>
              if h errs then
                let (r2, n3) := s.validate merged ⟨false, true⟩ n2
                ({ c with config := r2.value, fresh := n3 }, none)
              else ({ c with fresh := n2 }, none)

/-- `Config._initializeConfig(config)`: reset the state to a fresh empty
object, merge the argument (a fresh empty object when omitted), then reset
the per-key map and recreate the root observable.  When the inner merge
throws, the two observable fields are left untouched, exactly as in the
source, where the exception aborts the method after the `_merge` line. -/
def Config._initConfig (c : Config) (cfg : Option JSVal) :
    Config × Option ConfigError :=
  let (cfgV, n0) :=
    match cfg with
    | some v => (v, c.fresh)
    | none => (JSVal.vObj c.fresh .fnil, c.fresh + 1)
  let c1 : Config := { c with config := JSVal.vObj n0 .fnil, fresh := n0 + 1 }
  match c1._merge cfgV none with
  | (c2, some e) => (c2, some e)
  | (c2, none) =>
      ({ c2 with observables := [],
                 observable := { val := c2.config, listeners := [] } }, none)

/-- `new Config(schema, config)`: store the schema and initialize. -/
def Config.make (schema : Option Schema) (cfg : Option JSVal) (n : Nat) :
    Config × Option ConfigError :=
  let base : Config :=
    { config := .vUndefined, schema := schema,
      observable := { val := .vUndefined, listeners := [] },
      observables := [], fresh := n }
  base._initConfig cfg

/-- `Config.setSchema(newSchema, config)`: validate the (defaulted) config
against the new schema, throw on failure, else reset the state to a fresh
empty object, swap the schema and re-merge.  The root observable is not
touched. -/
def Config.setSchema (c : Config) (newSchema : Schema) (cfg : Option JSVal) :
    Config × Option ConfigError :=
  let cfgV := match cfg with | some v => v | none => c.config
  let (r, n1) := newSchema.validate cfgV ⟨false, false⟩ c.fresh
  match r.error with
  | some errs => ({ c with fresh := n1 }, some (.validationError errs))
  | none =>
      let c1 : Config := { c with config := JSVal.vObj n1 .fnil,
                                  schema := some newSchema, fresh := n1 + 1 }
      c1._merge cfgV none

/-- `Config.subscribe(\x7b onChange, key \x7d)`: no handler is a no-op; a
falsy key subscribes to the root observable; a truthy key lazily creates the
per-key observable seeded with the current value at the key. -/
def Config.subscribe (c : Config) (onChange : Option Nat) (key : Option String) :
    Config :=
  match onChange with
  | none => c
  | some l =>
      match strTruthy key with
      | none => { c with observable := c.observable.subscribe l }
      | some k =>
          match lookupObs c.observables k with
          | some o => { c with observables := updateObs c.observables k (o.subscribe l) }
          | none =>
              let o : Observable JSVal := { val := c.get (some k), listeners := [] }
              { c with observables := updateObs c.observables k (o.subscribe l) }

/-- `Config.set(\x7b override, value, key, onError \x7d)`: `null` value is a
silent no-op; `override` re-initializes first; a truthy key wraps the value
along the dotted path; then `_merge`, the per-key observable update (only
for the targeted key, and only if it already exists) and the root observable
update.  Returns the final state, the thrown error if any, and the
notifications fired, in order. -/
def Config.set (c : Config) (override : Bool) (value : JSVal)
    (key : Option String) (onError : Option (List String → Bool)) :
    Config × Option ConfigError × List (Nat × JSVal) :=
  if value = .vNull then (c, none, [])
  else
    match (if override then c._initConfig none else (c, none)) with
    | (c1, some e) => (c1, some e, [])
    | (c1, none) =>
        let (setValue, c2) :=
          match strTruthy key with
          | some k =>
              let (w, n1) := buildPath (splitPath k) value c1.fresh
              (w, { c1 with fresh := n1 })
          | none => (value, c1)
        match c2._merge setValue onError with
        | (c3, some e) => (c3, some e, [])
        | (c3, none) =>
            let (c4, evs1) :=
              match strTruthy key with
              | some k =>
                  match lookupObs c3.observables k with
                  | some o =>
                      let (o1, evs) := o.set (c3.get (some k))
                      ({ c3 with observables := updateObs c3.observables k o1 }, evs)
                  | none => (c3, [])
              | none => (c3, [])
            let (o2, evs2) := c4.observable.set c4.config
            ({ c4 with observable := o2 }, none, evs1 ++ evs2)

/-- Field type for the concrete model validator. -/
inductive JTy : Type where
  | tNum : JTy
  | tStr : JTy
  | tBool : JTy
  | tAny : JTy
deriving DecidableEq, Repr

/-- Does a value satisfy a field type? -/
def tyOk : JTy → JSVal → Bool
  | .tAny, _ => true
  | .tNum, .vNum _ => true
  | .tStr, .vStr _ => true
  | .tBool, .vBool _ => true
  | _, _ => false

/-- One declared key of the concrete model validator. -/
structure FieldSpec where
  fname : String
  ty : JTy
  required : Bool
deriving DecidableEq, Repr

/-- Lookup of a declared key. -/
def specFor : List FieldSpec → String → Option FieldSpec
  | [], _ => none
  | sp :: rest, k => if sp.fname = k then some sp else specFor rest k

/-- Errors for the declared keys: missing required keys and type errors. -/
def reqErrors (specs : List FieldSpec) (fs : JSFields) : List String :=
  specs.filterMap (fun sp =>
    match fs.getF sp.fname with
    | some v => if tyOk sp.ty v then none else some (sp.fname ++ (" has wrong type"))
    | none => if sp.required then some (sp.fname ++ (" is required")) else none)

/-- Errors for the keys not declared by the validator. -/
def unknownErrors (specs : List FieldSpec) (fs : JSFields) : List String :=
  fs.keysF.filterMap (fun k =>
    match specFor specs k with
    | some _ => none
    | none => some (k ++ (" is not allowed")))

/-- All errors the concrete model validator reports for a candidate; the
unknown-key errors are suppressed under `allowUnknown`. -/
def flatErrors (specs : List FieldSpec) (v : JSVal) (opts : VOpts) : List String :=
  match v with
  | .vObj _ fs =>
      reqErrors specs fs ++ (if opts.allowUnknown then [] else unknownErrors specs fs)
  | _ => [("value must be an object")]

/-- A concrete executable `Schema` instance: a flat object validator with
typed optional/required keys, rejecting unknown keys unless `allowUnknown`,
whose normalized value is a fresh deep clone of the candidate. -/
def flatSchema (specs : List FieldSpec) : Schema :=
  { validate := fun v opts n =>
      let es := flatErrors specs v opts
      let es1 := if opts.abortEarly then es.take 1 else es
      let (v1, n1) := cloneVal v n
      ({ error := if es1.isEmpty then none else some es1, value := v1 }, n1) }

/-- Helper: after `Observable.set v` the stored value is `v` (either it was
already `v`, or it was just stored). -/
theorem observable_set_val {α : Type} [DecidableEq α] (o : Observable α) (v : α) :
    (o.set v).1.val = v := by
  by_cases h : o.val = v <;> simp [Observable.set, h]

/-- Helper: `Observable.set` never changes the listener list. -/
theorem observable_set_listeners {α : Type} [DecidableEq α] (o : Observable α) (v : α) :
    (o.set v).1.listeners = o.listeners := by
  by_cases h : o.val = v <;> simp [Observable.set, h]

/-- Helper: looking up the key just written into the per-key map. -/
theorem lookupObs_updateObs (m : List (String × Observable JSVal)) (k : String)
    (o : Observable JSVal) : lookupObs (updateObs m k o) k = some o := by
  induction m with
  | nil => simp [updateObs, lookupObs]
  | cons p rest ih =>
      by_cases h : p.1 = k
      · simp [updateObs, lookupObs, h]
      · simp [updateObs, lookupObs, h, ih]

/-- Fixture: flat schema declaring an optional numeric key `a`. -/
def schemaNumA : Schema := flatSchema [⟨("a"), .tNum, false⟩]

/-- Fixture: flat schema declaring an optional unconstrained key `a`. -/
def schemaAnyA : Schema := flatSchema [⟨("a"), .tAny, false⟩]

/-- Fixture: flat schema declaring an optional numeric key `b`. -/
def schemaNumB : Schema := flatSchema [⟨("b"), .tNum, false⟩]

/-- Fixture: a Config built with `schemaNumA` and no initial values. -/
def cfgA : Config := (Config.make (some schemaNumA) none 0).1

/-- Fixture: `cfgA` with root listener `7`. -/
def cfgListen : Config := cfgA.subscribe (some 7) none

/-- Fixture: a Config with `schemaAnyA` and listener `9` on key `a.b`. -/
def cfgAnySub : Config :=
  ((Config.make (some schemaAnyA) none 0).1).subscribe (some 9) (some ("a.b"))

/-- Fixture object modelling the literal with `a = 5`. -/
def objA5 : JSVal := .vObj 100 (.fcons ("a") (.vNum 5) .fnil)

/-- Fixture object modelling the literal with `a = "x"`. -/
def objAX : JSVal := .vObj 100 (.fcons ("a") (.vStr ("x")) .fnil)

/-- Fixture object modelling the literal with `x = 1`. -/
def objX1 : JSVal := .vObj 100 (.fcons ("x") (.vNum 1) .fnil)

/-- Fixture object modelling the literal with `b = 2`. -/
def objB2 : JSVal := .vObj 200 (.fcons ("b") (.vNum 2) .fnil)

/-- Fixture object modelling the nested literal with `a.b = 5`. -/
def objANest : JSVal :=
  .vObj 100 (.fcons ("a") (.vObj 101 (.fcons ("b") (.vNum 5) .fnil)) .fnil)

/-- C9: `Observable.set` notifies its listeners — each exactly once, in
subscription order, with the new value — precisely when the new value is not
identical to the stored one (identity, not deep equality, since object
values compare by allocation identifier); an immediate second `set` with the
same value notifies nobody. -/
theorem observable_set_notifies_iff {α : Type} [DecidableEq α]
    (o : Observable α) (v : α) :
    ((o.set v).2 = if o.val = v then [] else o.listeners.map (fun l => (l, v)))
    ∧ ((o.set v).1.set v).2 = [] := by
  refine ⟨?_, ?_⟩
  · by_cases h : o.val = v <;> simp [Observable.set, h]
  · by_cases h : o.val = v <;> simp [Observable.set, h]

/-- C4 counterexample: subscribing the same listener reference twice and
calling one returned unsubscriber removes both instances — the other
subscription is not left active, and a later value change notifies nobody. -/
theorem unsubscribe_removes_every_instance_cex :
    ((((⟨0, []⟩ : Observable Nat).subscribe 5).subscribe 5).unsubscribe 5).listeners = []
    ∧ (((((⟨0, []⟩ : Observable Nat).subscribe 5).subscribe 5).unsubscribe 5).set 1).2 = [] := by
  exact ⟨rfl, rfl⟩

/-- C4 amended: the unsubscriber returned by `subscribe` removes every
instance identical to its captured listener reference; afterwards a `set`
that changes the value notifies exactly the remaining listeners (all
instances of other references), in order, and the removed reference receives
no further notification at all. -/
theorem unsubscribe_filters_by_identity {α : Type} [DecidableEq α]
    (o : Observable α) (l : Nat) (v : α) :
    ((o.unsubscribe l).listeners = o.listeners.filter (fun x => x != l))
    ∧ ((o.unsubscribe l).set v).2
        = (if o.val = v then []
           else (o.listeners.filter (fun x => x != l)).map (fun x => (x, v)))
    ∧ (∀ w, (l, w) ∉ ((o.unsubscribe l).set v).2) := by
  refine ⟨rfl, ?_, ?_⟩
  · by_cases h : o.val = v <;> simp [Observable.set, Observable.unsubscribe, h]
  · intro w hw
    by_cases h : o.val = v
    · simp [Observable.set, Observable.unsubscribe, h] at hw
    · simp [Observable.set, Observable.unsubscribe, h] at hw
      rcases hw with ⟨x, ⟨hmem, hne⟩, hxl, hwv⟩
      exact absurd hxl hne

/-- Helper: `Config._merge` with the let-bound pairs written as
projections (definitionally equal by structure eta). -/
theorem merge_proj (c : Config) (nv : JSVal) (onErr : Option (List String → Bool)) :
    c._merge nv onErr =
      (match c.schema with
       | none => ({ c with fresh := (deepMergeAll c.config nv c.fresh).2 }, some .typeError)
       | some s =>
           match ((s.validate (deepMergeAll c.config nv c.fresh).1 ⟨false, false⟩
                    (deepMergeAll c.config nv c.fresh).2).1).error with
           | none =>
               ({ c with
                   config := ((s.validate (deepMergeAll c.config nv c.fresh).1 ⟨false, false⟩
                                (deepMergeAll c.config nv c.fresh).2).1).value,
                   fresh := (s.validate (deepMergeAll c.config nv c.fresh).1 ⟨false, false⟩
                              (deepMergeAll c.config nv c.fresh).2).2 }, none)
           | some errs =>
               match onErr with
               | none =>
                   ({ c with fresh := (s.validate (deepMergeAll c.config nv c.fresh).1 ⟨false, false⟩
                                        (deepMergeAll c.config nv c.fresh).2).2 },
                    some (.validationError errs))
               | some h =>
                   if h errs then
                     ({ c with
                         config := ((s.validate (deepMergeAll c.config nv c.fresh).1 ⟨false, true⟩
                                      (s.validate (deepMergeAll c.config nv c.fresh).1 ⟨false, false⟩
                                        (deepMergeAll c.config nv c.fresh).2).2).1).value,
                         fresh := (s.validate (deepMergeAll c.config nv c.fresh).1 ⟨false, true⟩
                                    (s.validate (deepMergeAll c.config nv c.fresh).1 ⟨false, false⟩
                                      (deepMergeAll c.config nv c.fresh).2).2).2 }, none)
                   else
                     ({ c with fresh := (s.validate (deepMergeAll c.config nv c.fresh).1 ⟨false, false⟩
                                          (deepMergeAll c.config nv c.fresh).2).2 }, none)) := rfl


/-- The per-key-observable refresh a keyed `set` performs after a
successful merge. -/
def keyRefresh (c3 : Config) (k : String) : Config × List (Nat × JSVal) :=
  match lookupObs c3.observables k with
  | some o =>
      let p := o.set (c3.get (some k))
      ({ c3 with observables := updateObs c3.observables k p.1 }, p.2)
  | none => (c3, [])

/-- The root-observable update finishing a successful `set`. -/
def rootRefresh (c4 : Config) : Config × List (Nat × JSVal) :=
  let p := c4.observable.set c4.config
  ({ c4 with observable := p.1 }, p.2)

/-- The config-plus-counter state against which a keyed `set` runs its
merge (the counter advanced past the path-wrapping allocations). -/
def keyedMergeArg (c : Config) (k1 : String) (p : JSVal) : Config :=
  { c with fresh := (buildPath (splitPath k1) p c.fresh).2 }

/-- Helper: `Config.set` with no `override` and a falsy key, reduced to the
`_merge` call and the root-observable update. -/
theorem set_plain_proj (c : Config) (p : JSVal) (k : Option String)
    (onErr : Option (List String → Bool)) (hp : p ≠ .vNull)
    (hk : strTruthy k = none) :
    c.set false p k onErr =
      (match c._merge p onErr with
       | (c3, some e) => (c3, some e, [])
       | (c3, none) => ((rootRefresh c3).1, none, (rootRefresh c3).2)) := by
  simp only [Config.set, if_neg hp, hk]
  rfl

/-- Helper: `Config.set` with no `override` and a truthy key, reduced to
the path-wrapped `_merge` call, the per-key refresh and the root update. -/
theorem set_keyed_proj (c : Config) (p : JSVal) (k : Option String) (k1 : String)
    (onErr : Option (List String → Bool)) (hp : p ≠ .vNull)
    (hk : strTruthy k = some k1) :
    c.set false p k onErr =
      (match (keyedMergeArg c k1 p)._merge
               (buildPath (splitPath k1) p c.fresh).1 onErr with
       | (c3, some e) => (c3, some e, [])
       | (c3, none) =>
           ((rootRefresh (keyRefresh c3 k1).1).1, none,
            (keyRefresh c3 k1).2 ++ (rootRefresh (keyRefresh c3 k1).1).2)) := by
  simp only [Config.set, if_neg hp, hk]
  rfl

/-- Helper: `Config.set` with `override` first re-initializes, then — when
that does not throw — behaves as the corresponding `set` without
`override` on the re-initialized state. -/
theorem set_override_chain (c : Config) (p : JSVal) (k : Option String)
    (onErr : Option (List String → Bool)) (hp : p ≠ .vNull) :
    c.set true p k onErr =
      (match c._initConfig none with
       | (c1, some e) => (c1, some e, [])
       | (c1, none) => c1.set false p k onErr) := by
  simp only [Config.set, if_neg hp]
  rfl

/-- Helper: `Config._merge` only ever writes the `config` and `fresh`
fields: schema, root observable and the per-key map are untouched. -/
theorem merge_preserves_misc (c : Config) (nv : JSVal)
    (onErr : Option (List String → Bool)) :
    ((c._merge nv onErr).1.observable = c.observable)
    ∧ ((c._merge nv onErr).1.observables = c.observables)
    ∧ ((c._merge nv onErr).1.schema = c.schema) := by
  rw [merge_proj]
  repeat' split
  all_goals exact ⟨rfl, rfl, rfl⟩

/-- Helper: behaviour of the root-observable refresh ending a `set`. -/
theorem rootRefresh_spec (c4 : Config) :
    (rootRefresh c4).1.config = c4.config
    ∧ (rootRefresh c4).1.observable.val = c4.config
    ∧ (rootRefresh c4).1.observable.listeners = c4.observable.listeners
    ∧ (rootRefresh c4).2
        = (if c4.observable.val = c4.config then []
           else c4.observable.listeners.map (fun l => (l, c4.config))) := by
  refine ⟨rfl, observable_set_val _ _, observable_set_listeners _ _, ?_⟩
  by_cases hc : c4.observable.val = c4.config <;>
    simp [rootRefresh, Observable.set, hc]

/-- C2: a `set` whose merged patch fails validation, called without a
handler (and without `override`), throws a `validationError` carrying the
validator's full error list as collected with `abortEarly = false`, fires no
notification, and leaves `get()` — the state — exactly as before: the merge
is all-or-nothing. -/
theorem set_invalid_without_handler_atomic (c : Config) (s : Schema) (p : JSVal)
    (errs : List String)
    (hs : c.schema = some s)
    (hp : p ≠ .vNull)
    (he : ((s.validate (deepMergeAll c.config p c.fresh).1 ⟨false, false⟩
            (deepMergeAll c.config p c.fresh).2).1).error = some errs) :
    (c.set false p none none).2.1 = some (.validationError errs)
    ∧ (c.set false p none none).1.get none = c.get none
    ∧ (c.set false p none none).1.config = c.config
    ∧ (c.set false p none none).2.2 = [] := by
  have hm : c._merge p none =
      ({ c with fresh := (s.validate (deepMergeAll c.config p c.fresh).1 ⟨false, false⟩
                           (deepMergeAll c.config p c.fresh).2).2 },
       some (.validationError errs)) := by
    simp only [merge_proj, hs, he]
  rw [set_plain_proj c p none none hp rfl, hm]
  exact ⟨rfl, rfl, rfl, rfl⟩

/-- C2 witness: a concrete failing patch against the numeric-key schema. -/
theorem set_invalid_without_handler_atomic_witness :
    (cfgA.set false objAX none none).2.1
        = some (.validationError [("a has wrong type")])
    ∧ (cfgA.set false objAX none none).1.get none = cfgA.get none
    ∧ (cfgA.set false objAX none none).1.config = cfgA.config
    ∧ (cfgA.set false objAX none none).2.2 = [] :=
  set_invalid_without_handler_atomic cfgA schemaNumA objAX
    [("a has wrong type")] rfl (by decide) (by decide)

/-- C5: a `set` whose merged patch fails validation, called with a handler:
the call never throws; a truthy handler commits the value produced by the
`allowUnknown` revalidation of the merged patch, a falsy handler leaves the
state wholly unchanged. -/
theorem set_with_handler_fallback_or_swallow (c : Config) (s : Schema) (p : JSVal)
    (h : List String → Bool) (errs : List String)
    (hs : c.schema = some s)
    (hp : p ≠ .vNull)
    (he : ((s.validate (deepMergeAll c.config p c.fresh).1 ⟨false, false⟩
            (deepMergeAll c.config p c.fresh).2).1).error = some errs) :
    (c.set false p none (some h)).2.1 = none
    ∧ (c.set false p none (some h)).1.config
        = (if h errs then
             ((s.validate (deepMergeAll c.config p c.fresh).1 ⟨false, true⟩
                (s.validate (deepMergeAll c.config p c.fresh).1 ⟨false, false⟩
                  (deepMergeAll c.config p c.fresh).2).2).1).value
           else c.config) := by
  by_cases hb : h errs = true
  · have hm : c._merge p (some h) =
        ({ c with
            config := ((s.validate (deepMergeAll c.config p c.fresh).1 ⟨false, true⟩
                         (s.validate (deepMergeAll c.config p c.fresh).1 ⟨false, false⟩
                           (deepMergeAll c.config p c.fresh).2).2).1).value,
            fresh := (s.validate (deepMergeAll c.config p c.fresh).1 ⟨false, true⟩
                       (s.validate (deepMergeAll c.config p c.fresh).1 ⟨false, false⟩
                         (deepMergeAll c.config p c.fresh).2).2).2 }, none) := by
      simp only [merge_proj, hs, he, hb, if_true]
    rw [set_plain_proj c p none (some h) hp rfl, hm]
    exact ⟨rfl, by rw [if_pos hb]; rfl⟩
  · have hb' : h errs = false := by
      simpa using hb
    have hm : c._merge p (some h) =
        ({ c with fresh := (s.validate (deepMergeAll c.config p c.fresh).1 ⟨false, false⟩
                             (deepMergeAll c.config p c.fresh).2).2 }, none) := by
      simp only [merge_proj, hs, he, hb']
      rfl
    rw [set_plain_proj c p none (some h) hp rfl, hm]
    exact ⟨rfl, by rw [if_neg hb]; rfl⟩

/-- C5 witness: against the numeric-`a` schema, a truthy handler commits the
unknown key `x` (lenient fallback), a falsy handler leaves the state
untouched without a throw. -/
theorem set_with_handler_fallback_or_swallow_witness :
    ((cfgA.set false objX1 none (some (fun _ => true))).2.1 = none
      ∧ (cfgA.set false objX1 none (some (fun _ => true))).1.get (some ("x"))
          = .vNum 1)
    ∧ ((cfgA.set false objX1 none (some (fun _ => false))).2.1 = none
      ∧ (cfgA.set false objX1 none (some (fun _ => false))).1.config
          = cfgA.config) :=
  ⟨⟨(set_with_handler_fallback_or_swallow cfgA schemaNumA objX1 (fun _ => true)
      [("x is not allowed")] rfl (by decide) (by decide)).1, by decide⟩,
   ⟨(set_with_handler_fallback_or_swallow cfgA schemaNumA objX1 (fun _ => false)
      [("x is not allowed")] rfl (by decide) (by decide)).1,
    by
      rw [(set_with_handler_fallback_or_swallow cfgA schemaNumA objX1 (fun _ => false)
        [("x is not allowed")] rfl (by decide) (by decide)).2]
      rfl⟩⟩

/-- C10: `Config.set` treats exactly `null` (also the default of an omitted
value) as "no value": such calls return silently, with state, observables
and error all untouched and no notification, so `set` can never store
`null` itself; other falsy values — `0`, `false`, the empty string — go
through the merge pipeline: against a config with a root listener each such
call commits a freshly merged state and fires a notification. -/
theorem set_null_noop_other_falsy_merge :
    (∀ (c : Config) (o : Bool) (k : Option String) (h : Option (List String → Bool)),
        c.set o .vNull k h = (c, none, []))
    ∧ ((cfgListen.set false (.vNum 0) none none).2.1 = none
        ∧ (cfgListen.set false (.vNum 0) none none).1.config ≠ cfgListen.config
        ∧ (cfgListen.set false (.vNum 0) none none).2.2 ≠ [])
    ∧ ((cfgListen.set false (.vBool false) none none).2.1 = none
        ∧ (cfgListen.set false (.vBool false) none none).2.2 ≠ [])
    ∧ ((cfgListen.set false (.vStr ("")) none none).2.1 = none
        ∧ (cfgListen.set false (.vStr ("")) none none).2.2 ≠ []) := by
  refine ⟨fun c o k h => rfl, by decide, by decide, by decide⟩

/-- C8 counterexample: `new Config()` — no schema, default initial values —
throws rather than succeeding (the initialization merge dereferences the
null schema), and so does a null schema with supplied initial values. -/
theorem make_without_schema_throws_cex :
    (Config.make none none 0).2 = some .typeError
    ∧ (Config.make none (some objA5) 0).2 = some .typeError :=
  ⟨rfl, rfl⟩

/-- The state reset performed at the top of `_initializeConfig`: the
current config replaced by a fresh empty object. -/
def resetBase (c : Config) (i : Nat) : Config :=
  { c with config := JSVal.vObj i .fnil, fresh := i + 1 }

/-- Helper: `Config._initializeConfig` with a supplied config, in
projection form. -/
theorem initConfig_some_proj (c : Config) (v : JSVal) :
    c._initConfig (some v) =
      (match (resetBase c c.fresh)._merge v none with
       | (c2, some e) => (c2, some e)
       | (c2, none) =>
           ({ c2 with observables := [],
                      observable := { val := c2.config, listeners := [] } }, none)) := rfl

/-- C8 amended: the schema is not optional in effect: with `schema = null`
construction always throws a TypeError, whatever the initial values; with a
supplied schema the initial values are validated immediately, construction
throwing exactly the validation error (if any) that the validator reports
for the initial merge with `abortEarly = false`. -/
theorem make_requires_schema_and_validates_initial :
    (∀ (cfg : Option JSVal) (n : Nat), (Config.make none cfg n).2 = some .typeError)
    ∧ (∀ (s : Schema) (cfg : JSVal) (n : Nat),
        (Config.make (some s) (some cfg) n).2
          = (((s.validate (deepMergeAll (.vObj n .fnil) cfg (n + 1)).1 ⟨false, false⟩
                (deepMergeAll (.vObj n .fnil) cfg (n + 1)).2).1).error).map
              ConfigError.validationError) := by
  constructor
  · intro cfg n
    cases cfg with
    | none => rfl
    | some v => rfl
  · intro s cfg n
    cases herr : ((s.validate (deepMergeAll (.vObj n .fnil) cfg (n + 1)).1 ⟨false, false⟩
                   (deepMergeAll (.vObj n .fnil) cfg (n + 1)).2).1).error with
    | none =>
        simp only [Config.make, initConfig_some_proj, merge_proj, resetBase, herr]
        rfl
    | some errs =>
        simp only [Config.make, initConfig_some_proj, merge_proj, resetBase, herr]
        rfl

/-- C3 counterexample: a successful `set` with `override = true` replaces
the root observable wholesale: the previously-registered root listener `7`
receives no notification, and is no longer registered afterwards. -/
theorem override_set_drops_root_listeners_cex :
    cfgListen.observable.listeners = [7]
    ∧ (cfgListen.set true objA5 none none).2.1 = none
    ∧ (cfgListen.set true objA5 none none).2.2 = []
    ∧ (cfgListen.set true objA5 none none).1.observable.listeners = [] := by
  refine ⟨by decide, by decide, by decide, by decide⟩

/-- C3 amended: a successful keyless `set` without `override` always points
the root observable at the whole new state, keeps the registered root
listeners, and — whenever the committed state is not identical to the root
observable's previous value, as a fresh-object-returning validator
guarantees — notifies each previously-registered root listener exactly
once, in subscription order, with the new state; with `override = true` the
root observable is replaced and previously-registered listeners are not
notified. -/
theorem set_updates_root_and_notifies (c : Config) (v : JSVal)
    (h : Option (List String → Bool))
    (hv : v ≠ .vNull)
    (hok : (c.set false v none h).2.1 = none)
    (hne : (c.set false v none h).1.config ≠ c.observable.val) :
    (c.set false v none h).1.observable.val = (c.set false v none h).1.config
    ∧ (c.set false v none h).2.2
        = c.observable.listeners.map (fun l => (l, (c.set false v none h).1.config))
    ∧ (c.set false v none h).1.observable.listeners = c.observable.listeners := by
  have hproj := set_plain_proj c v none h hv rfl
  rcases hm : c._merge v h with ⟨c3, e⟩
  rw [hm] at hproj
  have hobs : c3.observable = c.observable := by
    have h1 := (merge_preserves_misc c v h).1
    rw [hm] at h1
    exact h1
  cases e with
  | some err =>
      rw [hproj] at hok
      exact absurd hok (by simp)
  | none =>
      rw [hproj] at hne ⊢
      have hcfg : (rootRefresh c3).1.config = c3.config := rfl
      rw [hcfg] at hne ⊢
      have hne3 : c3.observable.val ≠ c3.config := by
        rw [hobs]
        exact fun hh => hne (hh ▸ rfl)
      refine ⟨(rootRefresh_spec c3).2.1, ?_, ?_⟩
      · rw [(rootRefresh_spec c3).2.2.2, if_neg hne3, hobs]
      · rw [(rootRefresh_spec c3).2.2.1, hobs]

/-- C3 witness: a keyless `set` of `a = 5` on the config with root listener
`7` notifies that listener with the committed state. -/
theorem set_updates_root_and_notifies_witness :
    (cfgListen.set false objA5 none none).1.observable.val
        = (cfgListen.set false objA5 none none).1.config
    ∧ (cfgListen.set false objA5 none none).2.2
        = cfgListen.observable.listeners.map
            (fun l => (l, (cfgListen.set false objA5 none none).1.config))
    ∧ (cfgListen.set false objA5 none none).1.observable.listeners
        = cfgListen.observable.listeners :=
  set_updates_root_and_notifies cfgListen objA5 none (by decide) (by decide)
    (by decide)

/-- C6 counterexample: a successful `setSchema` changes the state but not
the root observable, which is left stale (not mirroring the state). -/
theorem setSchema_leaves_root_observable_stale_cex :
    (cfgA.setSchema schemaNumB (some objB2)).2 = none
    ∧ (cfgA.setSchema schemaNumB (some objB2)).1.observable.val
        ≠ (cfgA.setSchema schemaNumB (some objB2)).1.config := by
  refine ⟨by decide, by decide⟩

/-- Helper: `Config._initializeConfig` with the default config argument, in
projection form. -/
theorem initConfig_none_proj (c : Config) :
    c._initConfig none =
      (match (resetBase c (c.fresh + 1))._merge (JSVal.vObj c.fresh .fnil) none with
       | (c2, some e) => (c2, some e)
       | (c2, none) =>
           ({ c2 with observables := [],
                      observable := { val := c2.config, listeners := [] } }, none)) := rfl

/-- Helper: when `_initializeConfig` returns without throwing, the root
observable it installs holds exactly the new state, with no listeners. -/
theorem initConfig_mirror (c : Config) (cfg : Option JSVal)
    (hok : (c._initConfig cfg).2 = none) :
    (c._initConfig cfg).1.observable.val = (c._initConfig cfg).1.config
    ∧ (c._initConfig cfg).1.observable.listeners = [] := by
  rcases cfg with _ | v
  · rw [initConfig_none_proj] at hok ⊢
    rcases hm : (resetBase c (c.fresh + 1))._merge (JSVal.vObj c.fresh .fnil) none
      with ⟨c2, e⟩
    rw [hm] at hok
    cases e with
    | some err => exact Option.noConfusion hok
    | none => exact ⟨rfl, rfl⟩
  · rw [initConfig_some_proj] at hok ⊢
    rcases hm : (resetBase c c.fresh)._merge v none with ⟨c2, e⟩
    rw [hm] at hok
    cases e with
    | some err => exact Option.noConfusion hok
    | none => exact ⟨rfl, rfl⟩

/-- The state reset-and-schema-swap performed by a successful `setSchema`
before re-merging. -/
def schemaSwapBase (c : Config) (s2 : Schema) (i : Nat) : Config :=
  { c with config := JSVal.vObj i .fnil, schema := some s2, fresh := i + 1 }

/-- Helper: `Config.setSchema` with a supplied config, in projection
form. -/
theorem setSchema_some_proj (c : Config) (s2 : Schema) (v : JSVal) :
    c.setSchema s2 (some v) =
      (match ((s2.validate v ⟨false, false⟩ c.fresh).1).error with
       | some errs =>
           ({ c with fresh := (s2.validate v ⟨false, false⟩ c.fresh).2 },
            some (.validationError errs))
       | none =>
           (schemaSwapBase c s2 (s2.validate v ⟨false, false⟩ c.fresh).2)._merge
             v none) := rfl

/-- Helper: `Config.setSchema` with the config argument defaulted to the
current state, in projection form. -/
theorem setSchema_none_proj (c : Config) (s2 : Schema) :
    c.setSchema s2 none =
      (match ((s2.validate c.config ⟨false, false⟩ c.fresh).1).error with
       | some errs =>
           ({ c with fresh := (s2.validate c.config ⟨false, false⟩ c.fresh).2 },
            some (.validationError errs))
       | none =>
           (schemaSwapBase c s2 (s2.validate c.config ⟨false, false⟩ c.fresh).2)._merge
             c.config none) := rfl

/-- Helper: `setSchema` never writes the root observable field. -/
theorem setSchema_preserves_observable (c : Config) (s2 : Schema)
    (cfg : Option JSVal) :
    (c.setSchema s2 cfg).1.observable = c.observable := by
  rcases cfg with _ | v
  · rw [setSchema_none_proj]
    rcases herr : ((s2.validate c.config ⟨false, false⟩ c.fresh).1).error with _ | errs
    · exact (merge_preserves_misc _ _ _).1
    · rfl
  · rw [setSchema_some_proj]
    rcases herr : ((s2.validate v ⟨false, false⟩ c.fresh).1).error with _ | errs
    · exact (merge_preserves_misc _ _ _).1
    · rfl

/-- Helper: a `set` without `override` that returns normally ends with the
root observable holding the new state. -/
theorem set_noOverride_mirror (c : Config) (v : JSVal) (k : Option String)
    (h : Option (List String → Bool)) (hv : v ≠ .vNull)
    (hok : (c.set false v k h).2.1 = none) :
    (c.set false v k h).1.observable.val = (c.set false v k h).1.config := by
  cases hst : strTruthy k with
  | none =>
      rw [set_plain_proj c v k h hv hst] at hok ⊢
      rcases hm : c._merge v h with ⟨c3, e⟩
      rw [hm] at hok
      cases e with
      | some err => exact Option.noConfusion hok
      | none => exact (rootRefresh_spec c3).2.1
  | some k1 =>
      rw [set_keyed_proj c v k k1 h hv hst] at hok ⊢
      rcases hm : (keyedMergeArg c k1 v)._merge (buildPath (splitPath k1) v c.fresh).1 h
        with ⟨c3, e⟩
      rw [hm] at hok
      cases e with
      | some err => exact Option.noConfusion hok
      | none => exact (rootRefresh_spec _).2.1

/-- C6 amended: the root observable mirrors the state after successful
construction and after every `set` call with a non-null value that returns
normally — but `setSchema` never updates the root observable, so it is left
stale whenever `setSchema` changes the state. -/
theorem root_observable_mirror :
    (∀ (s : Option Schema) (cfg : Option JSVal) (n : Nat),
        (Config.make s cfg n).2 = none →
        (Config.make s cfg n).1.observable.val = (Config.make s cfg n).1.config)
    ∧ (∀ (c : Config) (o : Bool) (v : JSVal) (k : Option String)
          (h : Option (List String → Bool)), v ≠ .vNull →
        (c.set o v k h).2.1 = none →
        (c.set o v k h).1.observable.val = (c.set o v k h).1.config)
    ∧ (∀ (c : Config) (s2 : Schema) (cfg : Option JSVal),
        (c.setSchema s2 cfg).1.observable = c.observable) := by
  refine ⟨?_, ?_, ?_⟩
  · intro s cfg n hok
    exact (initConfig_mirror _ cfg hok).1
  · intro c o v k h hv hok
    cases o with
    | false => exact set_noOverride_mirror c v k h hv hok
    | true =>
        rw [set_override_chain c v k h hv] at hok ⊢
        rcases hmi : c._initConfig none with ⟨c1, e1⟩
        rw [hmi] at hok
        cases e1 with
        | some err => exact Option.noConfusion hok
        | none => exact set_noOverride_mirror c1 v k h hv hok
  · intro c s2 cfg
    exact setSchema_preserves_observable c s2 cfg

/-- C6 witness: the mirror property evaluated after a concrete
construction and after a concrete successful `set`. -/
theorem root_observable_mirror_witness :
    ((Config.make (some schemaNumA) none 0).1.observable.val
        = (Config.make (some schemaNumA) none 0).1.config)
    ∧ ((cfgListen.set false objA5 none none).1.observable.val
        = (cfgListen.set false objA5 none none).1.config) :=
  ⟨root_observable_mirror.1 (some schemaNumA) none 0 (by decide),
   root_observable_mirror.2.1 cfgListen false objA5 none none (by decide) (by decide)⟩

/-- Helper: the per-key refresh never changes the state or the root
observable. -/
theorem keyRefresh_spec (c3 : Config) (k1 : String) :
    (keyRefresh c3 k1).1.config = c3.config
    ∧ (keyRefresh c3 k1).1.observable = c3.observable := by
  unfold keyRefresh
  rcases lookupObs c3.observables k1 with _ | o
  · exact ⟨rfl, rfl⟩
  · exact ⟨rfl, rfl⟩

/-- Helper: a truthy key is never the empty string. -/
theorem strTruthy_isEmpty (k : Option String) (k1 : String)
    (hk : strTruthy k = some k1) : k1.isEmpty = false := by
  rcases k with _ | s
  · exact Option.noConfusion hk
  · simp only [strTruthy] at hk
    by_cases hs : s.isEmpty = true
    · rw [if_pos hs] at hk
      exact Option.noConfusion hk
    · rw [if_neg hs] at hk
      injection hk with h1
      rw [← h1]
      simpa using hs

/-- Helper: `Config.get` at a non-empty key is the dotted-path lookup. -/
theorem get_truthy (c : Config) (k1 : String) (hk : k1.isEmpty = false) :
    c.get (some k1) = getPath c.config (splitPath k1) := by
  simp [Config.get, strTruthy, hk]

/-- Helper: a falsy-key `set` around a merge that returns normally. -/
theorem set_plain_ok (c c3 : Config) (v : JSVal) (k : Option String)
    (h : Option (List String → Bool)) (hv : v ≠ .vNull)
    (hst : strTruthy k = none) (hm : c._merge v h = (c3, none)) :
    c.set false v k h = ((rootRefresh c3).1, none, (rootRefresh c3).2) := by
  rw [set_plain_proj c v k h hv hst, hm]

/-- Helper: a falsy-key `set` around a merge that throws. -/
theorem set_plain_err (c c3 : Config) (v : JSVal) (k : Option String)
    (h : Option (List String → Bool)) (e : ConfigError) (hv : v ≠ .vNull)
    (hst : strTruthy k = none) (hm : c._merge v h = (c3, some e)) :
    c.set false v k h = (c3, some e, []) := by
  rw [set_plain_proj c v k h hv hst, hm]

/-- Helper: a truthy-key `set` around a merge that returns normally. -/
theorem set_keyed_ok (c c3 : Config) (v : JSVal) (k : Option String) (k1 : String)
    (h : Option (List String → Bool)) (hv : v ≠ .vNull)
    (hk : strTruthy k = some k1)
    (hm : (keyedMergeArg c k1 v)._merge (buildPath (splitPath k1) v c.fresh).1 h
          = (c3, none)) :
    c.set false v k h
      = ((rootRefresh (keyRefresh c3 k1).1).1, none,
         (keyRefresh c3 k1).2 ++ (rootRefresh (keyRefresh c3 k1).1).2) := by
  rw [set_keyed_proj c v k k1 h hv hk, hm]

/-- Helper: a truthy-key `set` around a merge that throws. -/
theorem set_keyed_err (c c3 : Config) (v : JSVal) (k : Option String) (k1 : String)
    (h : Option (List String → Bool)) (e : ConfigError) (hv : v ≠ .vNull)
    (hk : strTruthy k = some k1)
    (hm : (keyedMergeArg c k1 v)._merge (buildPath (splitPath k1) v c.fresh).1 h
          = (c3, some e)) :
    c.set false v k h = (c3, some e, []) := by
  rw [set_keyed_proj c v k k1 h hv hk, hm]

/-- C7 counterexample: with a per-key observable registered on `a.b`, a
keyless `set` whose patch covers `a.b` succeeds and changes the value at
that path, yet the per-key observable keeps its stale previous value. -/
theorem keyless_set_leaves_key_observable_stale_cex :
    (cfgAnySub.set false objANest none none).2.1 = none
    ∧ (cfgAnySub.set false objANest none none).1.get (some ("a.b")) = .vNum 5
    ∧ lookupObs (cfgAnySub.set false objANest none none).1.observables ("a.b")
        = some { val := .vUndefined, listeners := [9] }
    ∧ (JSVal.vUndefined : JSVal) ≠ .vNum 5 := by
  refine ⟨by decide, by decide, by decide, by decide⟩

/-- C7 amended: a per-key observable is refreshed only by `set` calls
targeting exactly its key: after a successful keyed `set` without
`override`, the observable of the targeted key holds exactly the freshly
read value at that key in the new state, while a `set` with no key never
touches the per-key map at all (so its entries can go stale whenever a
keyless mutation changes the value under them). -/
theorem key_observable_refresh (c : Config) (v : JSVal) (k : Option String)
    (k1 : String) (h : Option (List String → Bool)) (ob : Observable JSVal)
    (hv : v ≠ .vNull)
    (hk : strTruthy k = some k1)
    (hok : (c.set false v k h).2.1 = none)
    (hob : lookupObs c.observables k1 = some ob) :
    (∃ ob2, lookupObs (c.set false v k h).1.observables k1 = some ob2
        ∧ ob2.val = (c.set false v k h).1.get (some k1))
    ∧ (∀ (c1 : Config) (v1 : JSVal) (h1 : Option (List String → Bool)),
        (c1.set false v1 none h1).1.observables = c1.observables) := by
  constructor
  · rcases hm : (keyedMergeArg c k1 v)._merge (buildPath (splitPath k1) v c.fresh).1 h
      with ⟨c3, e⟩
    cases e with
    | some err =>
        rw [set_keyed_err c c3 v k k1 h err hv hk hm] at hok
        exact Option.noConfusion hok
    | none =>
        rw [set_keyed_ok c c3 v k k1 h hv hk hm]
        have hobs3 : c3.observables = c.observables := by
          have h2 := (merge_preserves_misc (keyedMergeArg c k1 v)
            (buildPath (splitPath k1) v c.fresh).1 h).2.1
          rw [hm] at h2
          exact h2
        have hlook : lookupObs c3.observables k1 = some ob := by
          rw [hobs3]
          exact hob
        have hkr : keyRefresh c3 k1
            = ({ c3 with observables :=
                   updateObs c3.observables k1 (ob.set (c3.get (some k1))).1 },
               (ob.set (c3.get (some k1))).2) := by
          unfold keyRefresh
          rw [hlook]
        have hk1 : k1.isEmpty = false := strTruthy_isEmpty k k1 hk
        refine ⟨(ob.set (c3.get (some k1))).1, ?_, ?_⟩
        · rw [hkr]
          exact lookupObs_updateObs c3.observables k1 (ob.set (c3.get (some k1))).1
        · rw [observable_set_val, hkr]
          rw [get_truthy c3 k1 hk1, get_truthy _ k1 hk1]
          rfl
  · intro c1 v1 h1
    by_cases hv1 : v1 = .vNull
    · rw [hv1]
      rfl
    · rcases hm : c1._merge v1 h1 with ⟨c3, e⟩
      have hobs := (merge_preserves_misc c1 v1 h1).2.1
      rw [hm] at hobs
      cases e with
      | some err =>
          rw [set_plain_err c1 c3 v1 none h1 err hv1 rfl hm]
          exact hobs
      | none =>
          rw [set_plain_ok c1 c3 v1 none h1 hv1 rfl hm]
          exact hobs

/-- C7 witness: a keyed `set` on `a.b` refreshes the `a.b` observable with
the freshly read value at the key. -/
theorem key_observable_refresh_witness :
    ∃ ob2,
      lookupObs (cfgAnySub.set false (.vNum 7) (some ("a.b")) none).1.observables
          ("a.b") = some ob2
      ∧ ob2.val = (cfgAnySub.set false (.vNum 7) (some ("a.b")) none).1.get
          (some ("a.b")) :=
  (key_observable_refresh cfgAnySub (.vNum 7) (some ("a.b")) ("a.b") none
    ⟨.vUndefined, [9]⟩ (by decide) (by decide) (by decide) (by decide)).1

/-- C1 counterexample: with the numeric-`a` schema, merging the patch
`a = "x"` under a truthy `onError` handler commits a state that fails even
the `allowUnknown` revalidation: the state ends up holding a value that
never passed any validation, plain or lenient. -/
theorem fallback_commits_unvalidated_state_cex :
    (cfgA.set false objAX none (some (fun _ => true))).2.1 = none
    ∧ (cfgA.set false objAX none (some (fun _ => true))).1.get (some ("a"))
        = .vStr ("x")
    ∧ ((schemaNumA.validate
          (cfgA.set false objAX none (some (fun _ => true))).1.config
          ⟨false, true⟩ 1000).1).error ≠ none := by
  refine ⟨by decide, by decide, by decide⟩

/-- Helper: `_merge` either reports an error or — in every committing or
swallowed branch — returns without one; whenever it reports an error, the
state is left exactly as it was. -/
theorem merge_result_cases (c : Config) (nv : JSVal)
    (h : Option (List String → Bool)) :
    (c._merge nv h).2 = none ∨ (c._merge nv h).1.config = c.config := by
  rw [merge_proj]
  repeat' split
  all_goals first
    | (left; rfl)
    | (right; rfl)

/-- Helper: the state after `_merge` is unchanged, a passed plain-validation
output, or a truthy-handler commit of the `allowUnknown` revalidation's
output (whether or not that revalidation passed). -/
theorem merge_provenance (c : Config) (nv : JSVal)
    (h : Option (List String → Bool)) :
    (c._merge nv h).1.config = c.config
    ∨ (∃ s m n, c.schema = some s
         ∧ ((s.validate m ⟨false, false⟩ n).1).error = none
         ∧ (c._merge nv h).1.config = ((s.validate m ⟨false, false⟩ n).1).value)
    ∨ (∃ s hh errs m n n2, c.schema = some s ∧ h = some hh
         ∧ ((s.validate m ⟨false, false⟩ n).1).error = some errs
         ∧ hh errs = true
         ∧ (c._merge nv h).1.config = ((s.validate m ⟨false, true⟩ n2).1).value) := by
  rcases hs : c.schema with _ | s
  · left
    have hm : c._merge nv h
        = ({ c with fresh := (deepMergeAll c.config nv c.fresh).2 }, some .typeError) := by
      simp only [merge_proj, hs]
    rw [hm]
  · rcases herr : ((s.validate (deepMergeAll c.config nv c.fresh).1 ⟨false, false⟩
        (deepMergeAll c.config nv c.fresh).2).1).error with _ | errs
    · right; left
      refine ⟨s, (deepMergeAll c.config nv c.fresh).1,
        (deepMergeAll c.config nv c.fresh).2, rfl, herr, ?_⟩
      have hm : c._merge nv h
          = ({ c with
                config := ((s.validate (deepMergeAll c.config nv c.fresh).1 ⟨false, false⟩
                             (deepMergeAll c.config nv c.fresh).2).1).value,
                fresh := (s.validate (deepMergeAll c.config nv c.fresh).1 ⟨false, false⟩
                           (deepMergeAll c.config nv c.fresh).2).2 }, none) := by
        simp only [merge_proj, hs, herr]
      rw [hm]
    · rcases h with _ | hh
      · left
        have hm : c._merge nv none
            = ({ c with fresh := (s.validate (deepMergeAll c.config nv c.fresh).1
                  ⟨false, false⟩ (deepMergeAll c.config nv c.fresh).2).2 },
               some (.validationError errs)) := by
          simp only [merge_proj, hs, herr]
        rw [hm]
      · by_cases hb : hh errs = true
        · right; right
          refine ⟨s, hh, errs, (deepMergeAll c.config nv c.fresh).1,
            (deepMergeAll c.config nv c.fresh).2,
            (s.validate (deepMergeAll c.config nv c.fresh).1 ⟨false, false⟩
              (deepMergeAll c.config nv c.fresh).2).2,
            rfl, rfl, herr, hb, ?_⟩
          have hm : c._merge nv (some hh)
              = ({ c with
                    config := ((s.validate (deepMergeAll c.config nv c.fresh).1 ⟨false, true⟩
                                 (s.validate (deepMergeAll c.config nv c.fresh).1 ⟨false, false⟩
                                   (deepMergeAll c.config nv c.fresh).2).2).1).value,
                    fresh := (s.validate (deepMergeAll c.config nv c.fresh).1 ⟨false, true⟩
                               (s.validate (deepMergeAll c.config nv c.fresh).1 ⟨false, false⟩
                                 (deepMergeAll c.config nv c.fresh).2).2).2 }, none) := by
            simp only [merge_proj, hs, herr, hb, if_true]
          rw [hm]
        · left
          have hb1 : hh errs = false := by simpa using hb
          have hm : c._merge nv (some hh)
              = ({ c with fresh := (s.validate (deepMergeAll c.config nv c.fresh).1
                    ⟨false, false⟩ (deepMergeAll c.config nv c.fresh).2).2 }, none) := by
            simp only [merge_proj, hs, herr, hb1]
            rfl
          rw [hm]

/-- Helper: a handler-less `_merge` that returns normally committed the
plain validator output, which reported no error. -/
theorem merge_ok_noHandler (c : Config) (nv : JSVal)
    (hok : (c._merge nv none).2 = none) :
    ∃ s, c.schema = some s
      ∧ ((s.validate (deepMergeAll c.config nv c.fresh).1 ⟨false, false⟩
           (deepMergeAll c.config nv c.fresh).2).1).error = none
      ∧ (c._merge nv none).1.config
          = ((s.validate (deepMergeAll c.config nv c.fresh).1 ⟨false, false⟩
              (deepMergeAll c.config nv c.fresh).2).1).value := by
  rcases hs : c.schema with _ | s
  · have hm : c._merge nv none
        = ({ c with fresh := (deepMergeAll c.config nv c.fresh).2 }, some .typeError) := by
      simp only [merge_proj, hs]
    rw [hm] at hok
    exact Option.noConfusion hok
  · rcases herr : ((s.validate (deepMergeAll c.config nv c.fresh).1 ⟨false, false⟩
        (deepMergeAll c.config nv c.fresh).2).1).error with _ | errs
    · have hm : c._merge nv none
          = ({ c with
                config := ((s.validate (deepMergeAll c.config nv c.fresh).1 ⟨false, false⟩
                             (deepMergeAll c.config nv c.fresh).2).1).value,
                fresh := (s.validate (deepMergeAll c.config nv c.fresh).1 ⟨false, false⟩
                           (deepMergeAll c.config nv c.fresh).2).2 }, none) := by
        simp only [merge_proj, hs, herr]
      rw [hm]
      exact ⟨s, rfl, herr, rfl⟩
    · have hm : c._merge nv none
          = ({ c with fresh := (s.validate (deepMergeAll c.config nv c.fresh).1
                ⟨false, false⟩ (deepMergeAll c.config nv c.fresh).2).2 },
             some (.validationError errs)) := by
        simp only [merge_proj, hs, herr]
      rw [hm] at hok
      exact Option.noConfusion hok

/-- Helper: `_initializeConfig` never changes the schema field. -/
theorem initConfig_preserves_schema (c : Config) (cfg : Option JSVal) :
    (c._initConfig cfg).1.schema = c.schema := by
  rcases cfg with _ | v
  · rw [initConfig_none_proj]
    rcases hm : (resetBase c (c.fresh + 1))._merge (JSVal.vObj c.fresh .fnil) none
      with ⟨c2, e⟩
    have hs := (merge_preserves_misc (resetBase c (c.fresh + 1))
      (JSVal.vObj c.fresh .fnil) none).2.2
    rw [hm] at hs
    cases e with
    | some e1 => exact hs
    | none => exact hs
  · rw [initConfig_some_proj]
    rcases hm : (resetBase c c.fresh)._merge v none with ⟨c2, e⟩
    have hs := (merge_preserves_misc (resetBase c c.fresh) v none).2.2
    rw [hm] at hs
    cases e with
    | some e1 => exact hs
    | none => exact hs

/-- Helper: a successful `_initializeConfig` leaves the state equal to a
passed plain-validation output of the schema. -/
theorem initConfig_ok_config (c : Config) (cfg : Option JSVal)
    (hok : (c._initConfig cfg).2 = none) :
    ∃ s m n, c.schema = some s
      ∧ ((s.validate m ⟨false, false⟩ n).1).error = none
      ∧ (c._initConfig cfg).1.config = ((s.validate m ⟨false, false⟩ n).1).value := by
  rcases cfg with _ | v
  · rw [initConfig_none_proj] at hok ⊢
    rcases hm : (resetBase c (c.fresh + 1))._merge (JSVal.vObj c.fresh .fnil) none
      with ⟨c2, e⟩
    rw [hm] at hok
    cases e with
    | some e1 => exact Option.noConfusion hok
    | none =>
        have h2 := merge_ok_noHandler (resetBase c (c.fresh + 1))
          (JSVal.vObj c.fresh .fnil) (by rw [hm])
        rcases h2 with ⟨s, hs, herr, hcfg⟩
        rw [hm] at hcfg
        exact ⟨s, _, _, hs, herr, hcfg⟩
  · rw [initConfig_some_proj] at hok ⊢
    rcases hm : (resetBase c c.fresh)._merge v none with ⟨c2, e⟩
    rw [hm] at hok
    cases e with
    | some e1 => exact Option.noConfusion hok
    | none =>
        have h2 := merge_ok_noHandler (resetBase c c.fresh) v (by rw [hm])
        rcases h2 with ⟨s, hs, herr, hcfg⟩
        rw [hm] at hcfg
        exact ⟨s, _, _, hs, herr, hcfg⟩

/-- Helper: a throwing `_initializeConfig` leaves the state as the raw,
never-validated fresh empty object. -/
theorem initConfig_err_config (c : Config) (cfg : Option JSVal)
    (hne : (c._initConfig cfg).2 ≠ none) :
    ∃ i, (c._initConfig cfg).1.config = .vObj i .fnil := by
  rcases cfg with _ | v
  · rw [initConfig_none_proj] at hne ⊢
    rcases hm : (resetBase c (c.fresh + 1))._merge (JSVal.vObj c.fresh .fnil) none
      with ⟨c2, e⟩
    rw [hm] at hne
    cases e with
    | none => exact absurd rfl hne
    | some e1 =>
        have hr := merge_result_cases (resetBase c (c.fresh + 1))
          (JSVal.vObj c.fresh .fnil) none
        rw [hm] at hr
        rcases hr with h1 | h2
        · exact absurd h1 (by simp)
        · exact ⟨c.fresh + 1, h2⟩
  · rw [initConfig_some_proj] at hne ⊢
    rcases hm : (resetBase c c.fresh)._merge v none with ⟨c2, e⟩
    rw [hm] at hne
    cases e with
    | none => exact absurd rfl hne
    | some e1 =>
        have hr := merge_result_cases (resetBase c c.fresh) v none
        rw [hm] at hr
        rcases hr with h1 | h2
        · exact absurd h1 (by simp)
        · exact ⟨c.fresh, h2⟩

/-- Helper: state provenance across a `set` without `override`. -/
theorem set_noOverride_provenance (c : Config) (v : JSVal) (k : Option String)
    (h : Option (List String → Bool)) :
    (c.set false v k h).1.config = c.config
    ∨ (∃ s m n, c.schema = some s
         ∧ ((s.validate m ⟨false, false⟩ n).1).error = none
         ∧ (c.set false v k h).1.config = ((s.validate m ⟨false, false⟩ n).1).value)
    ∨ (∃ s hh errs m n n2, c.schema = some s ∧ h = some hh
         ∧ ((s.validate m ⟨false, false⟩ n).1).error = some errs
         ∧ hh errs = true
         ∧ (c.set false v k h).1.config = ((s.validate m ⟨false, true⟩ n2).1).value) := by
  by_cases hv : v = .vNull
  · left
    rw [hv]
    rfl
  · cases hst : strTruthy k with
    | none =>
        rcases hm : c._merge v h with ⟨c3, e⟩
        have hp := merge_provenance c v h
        rw [hm] at hp
        cases e with
        | some err =>
            have hcc : (c.set false v k h).1.config = c3.config := by
              rw [set_plain_err c c3 v k h err hv hst hm]
            rw [hcc]
            exact hp
        | none =>
            have hcc : (c.set false v k h).1.config = c3.config := by
              rw [set_plain_ok c c3 v k h hv hst hm]
              rfl
            rw [hcc]
            exact hp
    | some k1 =>
        rcases hm : (keyedMergeArg c k1 v)._merge
            (buildPath (splitPath k1) v c.fresh).1 h with ⟨c3, e⟩
        have hp := merge_provenance (keyedMergeArg c k1 v)
          (buildPath (splitPath k1) v c.fresh).1 h
        rw [hm] at hp
        cases e with
        | some err =>
            have hcc : (c.set false v k h).1.config = c3.config := by
              rw [set_keyed_err c c3 v k k1 h err hv hst hm]
            rw [hcc]
            exact hp
        | none =>
            have hcc : (c.set false v k h).1.config = c3.config := by
              rw [set_keyed_ok c c3 v k k1 h hv hst hm]
              exact (keyRefresh_spec c3 k1).1
            rw [hcc]
            exact hp

/-- C1 amended: after any `set` call, the state is (a) unchanged, (b) the
value returned by the schema's plain validation, which reported no error,
(c) the value returned by the `allowUnknown` revalidation after a supplied
handler returned truthy — committed whether or not that revalidation
reported errors — or (d), only when `override = true` resets the state and
the re-validation of the empty object throws, the raw never-validated
fresh empty object, with the error propagating to the caller. -/
theorem set_state_provenance (c : Config) (o : Bool) (v : JSVal)
    (k : Option String) (h : Option (List String → Bool)) :
    (c.set o v k h).1.config = c.config
    ∨ (∃ s m n, c.schema = some s
         ∧ ((s.validate m ⟨false, false⟩ n).1).error = none
         ∧ (c.set o v k h).1.config = ((s.validate m ⟨false, false⟩ n).1).value)
    ∨ (∃ s hh errs m n n2, c.schema = some s ∧ h = some hh
         ∧ ((s.validate m ⟨false, false⟩ n).1).error = some errs
         ∧ hh errs = true
         ∧ (c.set o v k h).1.config = ((s.validate m ⟨false, true⟩ n2).1).value)
    ∨ ((c.set o v k h).2.1 ≠ none
         ∧ ∃ i, (c.set o v k h).1.config = .vObj i .fnil) := by
  cases o with
  | false =>
      rcases set_noOverride_provenance c v k h with h1 | h2 | h3
      · exact Or.inl h1
      · exact Or.inr (Or.inl h2)
      · exact Or.inr (Or.inr (Or.inl h3))
  | true =>
      by_cases hv : v = .vNull
      · left
        rw [hv]
        rfl
      · rw [set_override_chain c v k h hv]
        rcases hmi : c._initConfig none with ⟨c1, e1⟩
        cases e1 with
        | some e =>
            right; right; right
            constructor
            · exact fun hcon => Option.noConfusion hcon
            · have hei := initConfig_err_config c none
                (by rw [hmi]; exact fun hcon => Option.noConfusion hcon)
              rw [hmi] at hei
              exact hei
        | none =>
            have hsch : c1.schema = c.schema := by
              have hps := initConfig_preserves_schema c none
              rw [hmi] at hps
              exact hps
            rcases set_noOverride_provenance c1 v k h with h1 | h2 | h3
            · right; left
              have hcfg := initConfig_ok_config c none (by rw [hmi])
              rw [hmi] at hcfg
              rcases hcfg with ⟨s, m, n, hs, herr, hcv⟩
              exact ⟨s, m, n, hs, herr, h1.trans hcv⟩
            · right; left
              rcases h2 with ⟨s, m, n, hs1, he1, hc1⟩
              rw [hsch] at hs1
              exact ⟨s, m, n, hs1, he1, hc1⟩
            · right; right; left
              rcases h3 with ⟨s, hh, errs, m, n, n2, hs1, hh1, he1, hb1, hc1⟩
              rw [hsch] at hs1
              exact ⟨s, hh, errs, m, n, n2, hs1, hh1, he1, hb1, hc1⟩
